import Mathlib

/-!
Shallow embedding of the OpenPGP-card data model of `piv/gpg_data.go`
(repository `areese/piv-go`).

Byte blocks (`[]byte` in Go) are modelled as `List Nat`; every byte a card
can deliver satisfies `b < 256`, which claims assume explicitly where the
value range matters.  Fallible Go functions returning `(T, error)` are
modelled as `Except GpgError T`.  A Go runtime panic (slice index out of
range) is modelled by the dedicated `GpgError.Panic` value so that an
out-of-range access is distinguishable from a returned error.
-/

/-- The error sentinels of the package (`ErrNotFound`, `ErrNoSuchTag`, ...).
Wrapping with `fmt.Errorf("...: %w", err)` only adds message text, which no
claim depends on, so an error is modelled by its base sentinel.  `Panic` is
not a Go error value: it marks a runtime panic from an out-of-range slice
access. -/
inductive GpgError where
  | NotFound
  | NoSuchTag
  | TooShort
  | KeyNotPresent
  | NoSuchAlgorithm
  | UnknownKeyOrigin
  | Panic
deriving Repr, DecidableEq

/-- Go slice indexing `l[i]` with `int` index: in range gives the element,
out of range is a runtime panic. -/
def goSliceIndex (l : List Nat) (i : Int) : Except GpgError Nat :=
  if 0 ≤ i ∧ i < (l.length : Int) then .ok (l.getD i.toNat 0) else .error .Panic

/-- Go slicing `l[lo:hi]`: requires `0 ≤ lo ≤ hi ≤ len(l)`, else panics. -/
def goSlice (l : List Nat) (lo hi : Int) : Except GpgError (List Nat) :=
  if 0 ≤ lo ∧ lo ≤ hi ∧ hi ≤ (l.length : Int) then
    .ok ((l.drop lo.toNat).take (hi.toNat - lo.toNat))
  else
    .error .Panic

/-- One uppercase hexadecimal digit (values 0..15). -/
def hexDigitChar (n : Nat) : Char :=
  if n < 10 then Char.ofNat (48 + n) else Char.ofNat (55 + n)

/-- Digit loop of `%X`: the fuel argument only bounds the recursion depth
(one unit per emitted digit) and keeps the definition kernel-computable;
it never runs out when started at n+1. -/
def toHexNatGo : Nat → Nat → List Char
  | 0, _ => []
  | fuel + 1, n =>
    if n < 16 then [hexDigitChar n]
    else toHexNatGo fuel (n / 16) ++ [hexDigitChar (n % 16)]

/-- Go `fmt.Sprintf("%X", n)`: uppercase hexadecimal, no padding. -/
def toHexNat (n : Nat) : List Char := toHexNatGo (n + 1) n

/-- Go `fmt.Sprintf("%02X", n)`: uppercase hexadecimal padded with a
leading zero to width two. -/
def hex2 (n : Nat) : List Char :=
  if n < 16 then '0' :: toHexNat n else toHexNat n

/-- Modelled from the spec: `UpperCaseHexString` (declared outside
`gpg_data.go`) renders a byte block as uppercase hex with no separators,
two digits per byte. -/
def upperHexChars : List Nat → List Char
  | [] => []
  | b :: rest => hex2 b ++ upperHexChars rest

/-- `UpperCaseHexString` as a `String`. -/
def UpperCaseHexString (l : List Nat) : String :=
  String.mk (upperHexChars l)

/-- `binary.BigEndian.Uint16` on a 2-byte block. -/
def beUint16 (l : List Nat) : Nat :=
  l.getD 0 0 * 256 + l.getD 1 0

/-- `binary.BigEndian.Uint32` on a 4-byte block. -/
def beUint32 (l : List Nat) : Nat :=
  ((l.getD 0 0 * 256 + l.getD 1 0) * 256 + l.getD 2 0) * 256 + l.getD 3 0

/-- Go `fmt.Sprintf("%-*d", w, n)` tail: left-justify a rendered string to
width `w` by appending spaces. -/
def padRightSpaces (s : String) (w : Nat) : String :=
  s ++ String.mk (List.replicate (w - s.length) ' ')

/-- The key slots.  Ordinals (0,1,2,3) follow the spec's closed
enumeration {Signature, Decryption, Authentication, Attestation}. -/
inductive KeyType where
  | SignatureKey
  | DecryptionKey
  | AuthenticationKey
  | AttestKey
deriving Repr, DecidableEq

/-- The integer ordinal of a key type (`int(keyType)` in Go). -/
def KeyType.toNat : KeyType → Nat
  | .SignatureKey => 0
  | .DecryptionKey => 1
  | .AuthenticationKey => 2
  | .AttestKey => 3

/-- Modelled from the spec: `KeyType.Offset` (declared outside
`gpg_data.go`) is the byte offset of a key slot in the 1-byte-per-key
origin array, i.e. the key type's ordinal. -/
def KeyType.Offset (t : KeyType) : Nat := t.toNat

/-- Modelled from the spec: `KeyTypeSize` (declared outside `gpg_data.go`)
is the size of the closed KeyType enumeration, the expected length of the
1-byte-per-key origin array. -/
def KeyTypeSize : Nat := 4

/-- Modelled from the spec: `KeyOrigin` (declared outside `gpg_data.go`),
a closed enumeration {NotPresent, Empty, Generated, Imported} stored as a
byte. -/
abbrev KeyOrigin := Nat

/-- Modelled from the spec: the `KeyOrigin` value for a key that is not
present. -/
def KeyNotPresent : KeyOrigin := 0

/-- Modelled from the spec: the highest known origin code
(`Imported`, ordinal 3 of the closed enumeration). -/
def KeyOriginLast : KeyOrigin := 3

/-- Modelled from the spec: `SecureMessagingAlgorithm` (declared outside
`gpg_data.go`), an enumeration of secure-messaging algorithm identifiers
stored as a byte. -/
abbrev SecureMessagingAlgorithm := Nat

/-- Modelled from the spec: the default "no secure messaging" algorithm
identifier. -/
def NoSecureMessaging : SecureMessagingAlgorithm := 0

/-- Modelled from the spec: the highest known secure-messaging algorithm
identifier. -/
def SecureMessagingAlgorithmLast : SecureMessagingAlgorithm := 3

/-- Modelled from the spec: capability bit masks for byte 1 of the
extended-capabilities block, most-significant bit first (declared outside
`gpg_data.go`).  The source names this constant `SecureMessaging`; the
record field of the same name would shadow it here. -/
def SecureMessagingFlag : Nat := 0x80

/-- Modelled from the spec: get-challenge capability bit. -/
def GetChallenge : Nat := 0x40

/-- Modelled from the spec: key-import capability bit. -/
def KeyImport : Nat := 0x20

/-- Modelled from the spec: PW-status-changeable capability bit (named
`PWStatusChangeable` in the source). -/
def PWStatusChangeableFlag : Nat := 0x10

/-- Modelled from the spec: private-use-DOs capability bit. -/
def PrivateUseDOs : Nat := 0x08

/-- Modelled from the spec: algorithm-attributes-changeable capability
bit (named `AlgorithmAttributesChangeable` in the source). -/
def AlgorithmAttributesChangeableFlag : Nat := 0x04

/-- Modelled from the spec: AES PSO decryption/encryption capability
bit. -/
def PSODECENCwithAES : Nat := 0x02

/-- Modelled from the spec: KDF-supported capability bit (named
`KDFSupported` in the source). -/
def KDFSupportedFlag : Nat := 0x01

/-- Modelled from the spec: tag-path constants declared outside
`gpg_data.go`; the paths themselves appear in the source's comments
(`6E.73.C5`, `6E.73.CD`, `6E.73.DE`, `6E.73.C0`, `6E.73.C{n+1}`). -/
def keyInformationTag : String := "6E.73.C5"

/-- Modelled from the spec: packed creation-date array tag. -/
def keyDateTag : String := "6E.73.CD"

/-- Modelled from the spec: key-origin array tag. -/
def keyOriginAttributesTag : String := "6E.73.DE"

/-- Modelled from the spec: extended-capabilities block tag. -/
def extendedCapabilitiesTag : String := "6E.73.C0"

/-- Modelled from the spec: signature-key algorithm-attributes tag. -/
def keyAlgorithmSignatureAttributesTag : String := "6E.73.C1"

/-- Modelled from the spec: decryption-key algorithm-attributes tag. -/
def keyAlgorithmDecryptionAttributesTag : String := "6E.73.C2"

/-- Modelled from the spec: authentication-key algorithm-attributes
tag. -/
def keyAlgorithmAuthenticationAttributesTag : String := "6E.73.C3"

/-- Modelled from the spec: the 20-byte per-key fingerprint length. -/
def keyFingerprintLen : Nat := 20

/-- Modelled from the spec: the 4-byte per-key creation-date length. -/
def keyDateLen : Nat := 4

/-- `NameNotSet` sentinel from the source. -/
def NameNotSet : String := "[not set]"

/-- The `GpgData` record: tag-path mapping plus the decoded identity and
capability fields. -/
structure GpgData where
  tlvValues : String → Option (List Nat)
  Reader : String := ""
  debug : Bool := false
  Serial : String := ""
  SerialInt : Nat := 0
  LongName : String := ""
  CardHolder : String := ""
  Rid : String := ""
  Application : String := ""
  Version : String := ""
  Manufacturer : String := ""
  AppletVersion : String := ""
  SecureMessagingSupported : Bool := false
  SecureMessaging : SecureMessagingAlgorithm := NoSecureMessaging
  GetChallengeSupported : Bool := false
  MaximumChallengeLength : Nat := 0
  KeyImportSupported : Bool := false
  PWStatusChangeable : Bool := false
  PrivateUseDOsSupported : Bool := false
  AlgorithmAttributesChangeable : Bool := false
  SupportsPSODecryptionEncryptionWithAES : Bool := false
  KDFSupported : Bool := false
  PinBlock2Supported : Bool := false
  MSECommandSupported : Bool := false
  MaximumCardholderCertificatesLength : Nat := 0
  MaximumSpecialDOsLength : Nat := 0

/-- A freshly constructed record over a tag-path mapping: every decoded
field at its zero/false/unsupported default. -/
def GpgData.fresh (tlv : String → Option (List Nat)) (reader : String) : GpgData :=
  { tlvValues := tlv, Reader := reader }

/-- `HasTag` checks if a tag exists and returns the length. -/
def GpgData.HasTag (g : GpgData) (key : String) : Nat × Bool :=
  match g.tlvValues key with
  | none => (0, false)
  | some v => (v.length, true)

/-- Modelled from the spec: `GetTag` (declared outside `gpg_data.go`)
looks a tag path up in the mapping, failing with the no-such-tag sentinel
when the path is absent and with the too-short sentinel when the value is
shorter than the expected minimum length ("make sure aid is long
enough"). -/
def GpgData.GetTag (g : GpgData) (key : String) (expectedLen : Nat) : Except GpgError (List Nat) :=
  match g.tlvValues key with
  | none => .error .NoSuchTag
  | some v => if v.length < expectedLen then .error .TooShort else .ok v

/-- `getKeyLen` returns the offset and expected length for a key type. -/
def getKeyLen (keyType : KeyType) (len : Nat) : Nat × Nat :=
  (keyType.toNat * len, keyType.toNat * len + len)

/-- `getBytesWith1BasedIndexing` returns `b[start-1:stop]` after checking
only a nil source and the upper bounds. -/
def getBytesWith1BasedIndexing (b : Option (List Nat)) (start stop : Int) : Except GpgError (List Nat) :=
  match b with
  | none => .error .NotFound
  | some l =>
    if start > (l.length : Int) ∨ stop > (l.length : Int) then .error .NotFound
    else goSlice l (start - 1) stop

/-- `getByteWith1BasedIndexing` returns `b[index-1]` after checking only a
nil source and the upper bound. -/
def getByteWith1BasedIndexing (b : Option (List Nat)) (index : Int) : Except GpgError Nat :=
  match b with
  | none => .error .NotFound
  | some l =>
    if index > (l.length : Int) then .error .NotFound
    else goSliceIndex l (index - 1)

/-- `isSupported` tests a capability bit mask. -/
def isSupported (capabilitiesByte flagValue : Nat) : Bool :=
  capabilitiesByte &&& flagValue == flagValue

/-- `setSecureMessaging`: only when the secure-messaging bit is set does
byte 2 get validated and recorded. -/
def GpgData.setSecureMessaging (g : GpgData) (capabilitiesByte smByte : Nat) : Except GpgError GpgData :=
  if capabilitiesByte &&& SecureMessagingFlag ≠ SecureMessagingFlag then .ok g
  else if smByte > SecureMessagingAlgorithmLast then .error .NoSuchAlgorithm
  else .ok { g with SecureMessagingSupported := true, SecureMessaging := smByte }

/-- `setGetChallengeSupported`: only when the get-challenge bit is set do
bytes 3-4 get validated and recorded. -/
def GpgData.setGetChallengeSupported (g : GpgData) (capabilitiesByte : Nat) (challenge : List Nat) : Except GpgError GpgData :=
  if capabilitiesByte &&& GetChallenge ≠ GetChallenge then .ok g
  else if challenge.length ≠ 2 then .error .TooShort
  else .ok { g with GetChallengeSupported := true, MaximumChallengeLength := beUint16 challenge }

/-- `loadExtendedData`: reset the non-sticky capability fields, then
decode the 10-byte extended-capabilities tag; an absent tag is not an
error. -/
def GpgData.loadExtendedData (g : GpgData) : Except GpgError GpgData :=
  let g0 := { g with SecureMessaging := NoSecureMessaging,
                     MaximumChallengeLength := 0,
                     MaximumCardholderCertificatesLength := 0,
                     MaximumSpecialDOsLength := 0,
                     PinBlock2Supported := false,
                     MSECommandSupported := false }
  match g0.GetTag extendedCapabilitiesTag 10 with
  | .error .NoSuchTag => .ok g0
  | .error e => .error e
  | .ok tag => do
    let capabilitiesByte ← getByteWith1BasedIndexing (some tag) 1
    let mByte ← getByteWith1BasedIndexing (some tag) 2
    let g1 ← g0.setSecureMessaging capabilitiesByte mByte
    let bs ← getBytesWith1BasedIndexing (some tag) 3 4
    let g2 ← g1.setGetChallengeSupported capabilitiesByte bs
    let g3 := { g2 with KeyImportSupported := isSupported capabilitiesByte KeyImport,
                        PWStatusChangeable := isSupported capabilitiesByte PWStatusChangeableFlag,
                        PrivateUseDOsSupported := isSupported capabilitiesByte PrivateUseDOs,
                        AlgorithmAttributesChangeable := isSupported capabilitiesByte AlgorithmAttributesChangeableFlag,
                        SupportsPSODecryptionEncryptionWithAES := isSupported capabilitiesByte PSODECENCwithAES,
                        KDFSupported := isSupported capabilitiesByte KDFSupportedFlag }
    let bs2 ← getBytesWith1BasedIndexing (some tag) 5 6
    let g4 := { g3 with MaximumCardholderCertificatesLength := beUint16 bs2 }
    let bs3 ← getBytesWith1BasedIndexing (some tag) 7 8
    let g5 := { g4 with MaximumSpecialDOsLength := beUint16 bs3 }
    let b9 ← getByteWith1BasedIndexing (some tag) 9
    let g6 := { g5 with PinBlock2Supported := isSupported b9 0x01 }
    let b10 ← getByteWith1BasedIndexing (some tag) 10
    .ok { g6 with MSECommandSupported := isSupported b10 0x01 }

/-- Go `strings.Index(s, "<<")`: 0-based index of the first occurrence of
the two-character marker, `none` when absent. -/
def indexOfMarker : List Char → Option Nat
  | [] => none
  | [_] => none
  | a :: b :: rest =>
    if a = '<' ∧ b = '<' then some 0
    else (indexOfMarker (b :: rest)).map (· + 1)

/-- Go `strings.ReplaceAll(s, "<", " ")`. -/
def replaceLtWithSpace (l : List Char) : List Char :=
  l.map (fun c => if c = '<' then ' ' else c)

/-- `ParseCardHolderName` on the character level: everything after the
first `<<` first, a newline only when that remainder is non-empty, then
the part before the marker with `<` replaced by spaces; empty input gives
the sentinel. -/
def ParseCardHolderName (name : List Char) : List Char :=
  if name.length = 0 then NameNotSet.toList
  else
    match indexOfMarker name with
    | some i =>
      name.drop (i + 2) ++
        (if i + 2 < name.length then ['\n'] else []) ++
        replaceLtWithSpace (name.take i)
    | none => replaceLtWithSpace name

/-- `update`: the once-per-session construction pass, decoding the
application identifier tag `6E.4F` and then the extended capabilities. -/
def GpgData.update (g : GpgData) : Except GpgError GpgData := do
  let aid ← g.GetTag "6E.4F" 13
  let a10 ← goSliceIndex aid 10
  let a11 ← goSliceIndex aid 11
  let a12 ← goSliceIndex aid 12
  let a13 ← goSliceIndex aid 13
  let serial := String.mk (toHexNat a10 ++ hex2 a11 ++ hex2 a12 ++ hex2 a13)
  let serialSlice ← goSlice aid 10 14
  let a6 ← goSliceIndex aid 6
  let a7 ← goSliceIndex aid 7
  let longName := g.Reader ++ " SN " ++ serial ++ " OpenPGP " ++
    String.mk (toHexNat a6) ++ "." ++ String.mk (toHexNat a7)
  let cardHolderBytes := match g.GetTag "65.5B" 0 with
    | .ok v => v
    | .error _ => []
  let cardHolder := String.mk (ParseCardHolderName (cardHolderBytes.map Char.ofNat))
  let ridSlice ← goSlice aid 0 5
  let a5 ← goSliceIndex aid 5
  let appSlice ← goSlice aid 5 6
  let app := if a5 = 1 then " (OpenPGP)" else ""
  let a8 ← goSliceIndex aid 8
  let a9 ← goSliceIndex aid 9
  let mfg := if a8 = 0 ∧ a9 = 6 then " (YubiCo)" else ""
  let g1 := { g with
    Serial := serial,
    SerialInt := beUint32 serialSlice,
    LongName := longName,
    CardHolder := cardHolder,
    Rid := UpperCaseHexString ridSlice,
    Application := UpperCaseHexString appSlice ++ app,
    Version := String.mk (toHexNat a6) ++ "." ++ String.mk (toHexNat a7),
    Manufacturer := String.mk (hex2 a8) ++ String.mk (hex2 a9) ++ mfg }
  g1.loadExtendedData

/-- The fixed info template of `String`, rendered by substituting the
record's fields (the template text is static, so parsing never fails and
execution is plain interpolation). -/
def infoRender (g : GpgData) : String :=
  "\n  Card:            " ++ g.LongName ++
  "\n  RID:             " ++ g.Rid ++
  "\n  Application:     " ++ g.Application ++
  "\n  Version:         " ++ g.Version ++
  "\n  Manufacturer:    " ++ g.Manufacturer ++
  "\n  Serial Number:   " ++ g.Serial ++
  "\n  Cardholder Name: " ++ g.CardHolder ++ "\n"

/-- `String` makes a GpgData struct readable (renamed here: the method
name would shadow the `String` type inside the namespace); a nil receiver
is a key-not-present failure. -/
def GpgData.StringRep (g : Option GpgData) : Except GpgError String :=
  match g with
  | none => .error .KeyNotPresent
  | some g => .ok (infoRender g)

/-- The algorithm-attributes tag consulted for each key type (the
`switch` inside `Algorithm`); the attestation slot has none. -/
def keyAlgorithmTagFor : KeyType → Option String
  | .SignatureKey => some keyAlgorithmSignatureAttributesTag
  | .DecryptionKey => some keyAlgorithmDecryptionAttributesTag
  | .AuthenticationKey => some keyAlgorithmAuthenticationAttributesTag
  | .AttestKey => none

/-- `Algorithm` returns the algorithm of the key at index. -/
def GpgData.Algorithm (g : Option GpgData) (keyType : KeyType) : Except GpgError String :=
  match g with
  | none => .error .KeyNotPresent
  | some g =>
    match keyAlgorithmTagFor keyType with
    | none => .error .NoSuchTag
    | some key =>
      match g.GetTag key 1 with
      | .error e => .error e
      | .ok data =>
        if data.getD 0 0 > 0 ∧ data.getD 0 0 > 3 then
          if data.length < 3 then .error .NoSuchAlgorithm
          else .ok ("RSA " ++ Nat.repr (data.getD 1 0 * 256 + data.getD 2 0))
        else .ok ("Alg=" ++ padRightSpaces (Nat.repr (data.getD 0 0)) 4)

/-- `Fingerprint` returns the fingerprint of the key at index. -/
def GpgData.Fingerprint (g : Option GpgData) (keyType : KeyType) : Except GpgError String :=
  match g with
  | none => .error .KeyNotPresent
  | some g =>
    let (offset, expectedLen) := getKeyLen keyType keyFingerprintLen
    match g.GetTag keyInformationTag expectedLen with
    | .error e => .error e
    | .ok data => do
      let slice ← goSlice data offset expectedLen
      .ok (UpperCaseHexString slice)

/-- `GetCardHolder` returns the cardholder of the key. -/
def GpgData.GetCardHolder (g : Option GpgData) : String :=
  match g with
  | none => ""
  | some g => g.CardHolder

/-- `GetVersion` returns the version of the key. -/
def GpgData.GetVersion (g : Option GpgData) : String :=
  match g with
  | none => ""
  | some g => g.Version

/-- `GetAppletVersion` returns the version of the applet. -/
def GpgData.GetAppletVersion (g : Option GpgData) : String :=
  match g with
  | none => ""
  | some g => g.AppletVersion

/-- `ID` returns the last 8 fingerprint bytes of the key at index. -/
def GpgData.ID (g : Option GpgData) (keyType : KeyType) : Except GpgError String :=
  match g with
  | none => .error .KeyNotPresent
  | some g =>
    let (_, expectedLen) := getKeyLen keyType keyFingerprintLen
    match g.GetTag keyInformationTag expectedLen with
    | .error e => .error e
    | .ok data => do
      let slice ← goSlice data (expectedLen - 8) expectedLen
      .ok (UpperCaseHexString slice)

/-- `Date` returns the creation date (Unix seconds) of the key at
index. -/
def GpgData.Date (g : Option GpgData) (keyType : KeyType) : Except GpgError Nat :=
  match g with
  | none => .error .KeyNotPresent
  | some g =>
    let (offset, expectedLen) := getKeyLen keyType keyDateLen
    match g.GetTag keyDateTag expectedLen with
    | .error e => .error e
    | .ok data => do
      let dateData ← goSlice data offset expectedLen
      let sub ← goSlice dateData 0 4
      .ok (beUint32 sub)

/-- `Origin` returns the origin of the key at index. -/
def GpgData.Origin (g : Option GpgData) (keyType : KeyType) : Except GpgError KeyOrigin :=
  match g with
  | none => .error .KeyNotPresent
  | some g =>
    let (tagLen, hasTag) := g.HasTag keyOriginAttributesTag
    if tagLen = 0 ∨ hasTag = false then .error .KeyNotPresent
    else
      match g.GetTag keyOriginAttributesTag KeyTypeSize with
      | .error e => .error e
      | .ok data => do
        let keyValue ← goSliceIndex data (keyType.Offset)
        if keyValue > KeyOriginLast then .error .UnknownKeyOrigin
        else .ok keyValue

/-! ## Supporting lemmas -/

theorem goSliceIndex_ok (l : List Nat) (i : Int) (h0 : 0 ≤ i) (h1 : i < (l.length : Int)) :
    goSliceIndex l i = .ok (l.getD i.toNat 0) := by
  simp [goSliceIndex, h0, h1]

theorem goSlice_ok (l : List Nat) (lo hi : Int) (h0 : 0 ≤ lo) (h1 : lo ≤ hi)
    (h2 : hi ≤ (l.length : Int)) :
    goSlice l lo hi = .ok ((l.drop lo.toNat).take (hi.toNat - lo.toNat)) := by
  simp [goSlice, h0, h1, h2]

theorem getByteWith1BasedIndexing_ok (l : List Nat) (i : Int) (h1 : 1 ≤ i)
    (h2 : i ≤ (l.length : Int)) :
    getByteWith1BasedIndexing (some l) i = .ok (l.getD (i - 1).toNat 0) := by
  have hnot : ¬ i > (l.length : Int) := by omega
  simp only [getByteWith1BasedIndexing, hnot, if_false]
  exact goSliceIndex_ok l (i - 1) (by omega) (by omega)

theorem getBytesWith1BasedIndexing_ok (l : List Nat) (s e : Int) (h1 : 1 ≤ s)
    (h2 : s ≤ e + 1) (h3 : e ≤ (l.length : Int)) (h4 : s ≤ (l.length : Int)) :
    getBytesWith1BasedIndexing (some l) s e =
      .ok ((l.drop (s - 1).toNat).take (e.toNat - (s - 1).toNat)) := by
  have hnot : ¬ (s > (l.length : Int) ∨ e > (l.length : Int)) := by omega
  simp only [getBytesWith1BasedIndexing, hnot, if_false]
  exact goSlice_ok l (s - 1) e (by omega) (by omega) h3

theorem upperHexChars_append (a b : List Nat) :
    upperHexChars (a ++ b) = upperHexChars a ++ upperHexChars b := by
  induction a with
  | nil => rfl
  | cons x xs ih => simp [upperHexChars, ih]

theorem toHexNatGo_of_lt_16 (fuel n : Nat) (hf : 1 ≤ fuel) (h : n < 16) :
    toHexNatGo fuel n = [hexDigitChar n] := by
  cases fuel with
  | zero => omega
  | succ f => simp [toHexNatGo, h]

theorem toHexNat_length_of_lt_16 (n : Nat) (h : n < 16) : (toHexNat n).length = 1 := by
  rw [toHexNat, toHexNatGo_of_lt_16 _ _ (by omega) h]
  rfl

theorem hex2_length (n : Nat) (h : n < 256) : (hex2 n).length = 2 := by
  by_cases h16 : n < 16
  · simp [hex2, h16, toHexNat_length_of_lt_16 n h16]
  · have hdiv : n / 16 < 16 := by omega
    rw [hex2, if_neg h16, toHexNat]
    simp [toHexNatGo, h16, toHexNatGo_of_lt_16 n (n / 16) (by omega) hdiv]

theorem upperHexChars_length (l : List Nat) (h : ∀ b ∈ l, b < 256) :
    (upperHexChars l).length = 2 * l.length := by
  induction l with
  | nil => rfl
  | cons x xs ih =>
    have hx : x < 256 := h x (by simp)
    have hxs : ∀ b ∈ xs, b < 256 := fun b hb => h b (by simp [hb])
    simp [upperHexChars, hex2_length x hx, ih hxs]
    ring

theorem getD_drop_take (l : List Nat) (a n j : Nat) (h : j < n) :
    ((l.drop a).take n).getD j 0 = l.getD (a + j) 0 := by
  simp only [List.getD]
  rw [List.get?_take h, List.get?_drop]

/-! ## Claims -/

/-- C8: reading byte 1 of an N-byte block succeeds for all N ≥ 1; reading
byte N+1 fails with NotFound; reading the inclusive range (N, N) succeeds;
reading the range (1, N+1) fails with NotFound; both accessors fail with
NotFound on a nil source. -/
theorem accessor_boundary_c8 (l : List Nat) :
    (1 ≤ l.length → getByteWith1BasedIndexing (some l) 1 = .ok (l.getD 0 0)) ∧
    (getByteWith1BasedIndexing (some l) ((l.length : Int) + 1) = .error .NotFound) ∧
    (1 ≤ l.length →
      getBytesWith1BasedIndexing (some l) (l.length : Int) (l.length : Int) =
        .ok ((l.drop (l.length - 1)).take 1)) ∧
    (getBytesWith1BasedIndexing (some l) 1 ((l.length : Int) + 1) = .error .NotFound) ∧
    (∀ i : Int, getByteWith1BasedIndexing none i = .error .NotFound) ∧
    (∀ s e : Int, getBytesWith1BasedIndexing none s e = .error .NotFound) := by
  refine ⟨?_, ?_, ?_, ?_, fun i => rfl, fun s e => rfl⟩
  · intro h
    have := getByteWith1BasedIndexing_ok l 1 (by omega) (by omega)
    simpa using this
  · simp [getByteWith1BasedIndexing]
  · intro h
    have := getBytesWith1BasedIndexing_ok l (l.length : Int) (l.length : Int)
      (by omega) (by omega) (by omega) (by omega)
    rw [this]
    congr 1
    have h1 : ((l.length : Int) - 1).toNat = l.length - 1 := by omega
    have h2 : (l.length : Int).toNat = l.length := by omega
    rw [h1, h2]
    congr 1
    omega
  · simp [getBytesWith1BasedIndexing]

/-- C8 witness at a concrete 3-byte block. -/
theorem accessor_boundary_c8_witness :
    getByteWith1BasedIndexing (some [7, 8, 9]) 1 = .ok 7 ∧
    getByteWith1BasedIndexing (some [7, 8, 9]) 4 = .error .NotFound ∧
    getBytesWith1BasedIndexing (some [7, 8, 9]) 3 3 = .ok [9] ∧
    getBytesWith1BasedIndexing (some [7, 8, 9]) 1 4 = .error .NotFound := by
  have h := accessor_boundary_c8 [7, 8, 9]
  exact ⟨h.1 (by decide), h.2.1, h.2.2.1 (by decide), h.2.2.2.1⟩

/-- C9: every per-key accessor (Algorithm, Fingerprint, ID, Date, Origin,
String) on an absent/nil record returns the key-not-present failure, and
the plain getters GetCardHolder, GetVersion and GetAppletVersion on an
absent/nil record return the empty string without failing. -/
theorem nil_record_accessors_c9 :
    (∀ t : KeyType, GpgData.Algorithm none t = .error .KeyNotPresent) ∧
    (∀ t : KeyType, GpgData.Fingerprint none t = .error .KeyNotPresent) ∧
    (∀ t : KeyType, GpgData.ID none t = .error .KeyNotPresent) ∧
    (∀ t : KeyType, GpgData.Date none t = .error .KeyNotPresent) ∧
    (∀ t : KeyType, GpgData.Origin none t = .error .KeyNotPresent) ∧
    GpgData.StringRep none = .error .KeyNotPresent ∧
    GpgData.GetCardHolder none = "" ∧
    GpgData.GetVersion none = "" ∧
    GpgData.GetAppletVersion none = "" :=
  ⟨fun _ => rfl, fun _ => rfl, fun _ => rfl, fun _ => rfl, fun _ => rfl, rfl, rfl, rfl, rfl⟩

/-- C10: the 1-based accessors check only a nil source and the upper
bounds; NotFound comes exactly from those checks, the unchecked lower
bounds (index ≥ 1, start ≥ 1, start ≤ end+1) make them total, and a call
violating them reaches an out-of-range slice access (a runtime panic)
instead of NotFound. -/
theorem accessor_bounds_only_upper_c10 :
    (∀ (l : List Nat) (i : Int),
      (getByteWith1BasedIndexing (some l) i = .error .NotFound ↔ (l.length : Int) < i) ∧
      (1 ≤ i → i ≤ (l.length : Int) →
        getByteWith1BasedIndexing (some l) i = .ok (l.getD (i - 1).toNat 0)) ∧
      (i < 1 → i ≤ (l.length : Int) →
        getByteWith1BasedIndexing (some l) i = .error .Panic)) ∧
    (∀ (l : List Nat) (s e : Int),
      (getBytesWith1BasedIndexing (some l) s e = .error .NotFound ↔
        (l.length : Int) < s ∨ (l.length : Int) < e) ∧
      (1 ≤ s → s ≤ e + 1 → e ≤ (l.length : Int) → s ≤ (l.length : Int) →
        getBytesWith1BasedIndexing (some l) s e =
          .ok ((l.drop (s - 1).toNat).take (e.toNat - (s - 1).toNat))) ∧
      ((s < 1 ∨ e + 1 < s) → s ≤ (l.length : Int) → e ≤ (l.length : Int) →
        getBytesWith1BasedIndexing (some l) s e = .error .Panic)) ∧
    (∀ i : Int, getByteWith1BasedIndexing none i = .error .NotFound) ∧
    (∀ s e : Int, getBytesWith1BasedIndexing none s e = .error .NotFound) := by
  refine ⟨fun l i => ⟨?_, ?_, ?_⟩, fun l s e => ⟨?_, ?_, ?_⟩, fun i => rfl, fun s e => rfl⟩
  · constructor
    · intro h
      by_contra hle
      rw [getByteWith1BasedIndexing] at h
      rw [if_neg (by omega)] at h
      rw [goSliceIndex] at h
      split at h
      · exact absurd h (by simp)
      · exact absurd h (by simp)
    · intro h
      simp [getByteWith1BasedIndexing, h]
  · intro h1 h2
    exact getByteWith1BasedIndexing_ok l i h1 h2
  · intro h1 h2
    rw [getByteWith1BasedIndexing, if_neg (by omega), goSliceIndex, if_neg (by omega)]
  · constructor
    · intro h
      by_contra hle
      rw [getBytesWith1BasedIndexing] at h
      rw [if_neg (by omega)] at h
      rw [goSlice] at h
      split at h
      · exact absurd h (by simp)
      · exact absurd h (by simp)
    · intro h
      simp only [getBytesWith1BasedIndexing]
      rw [if_pos (by omega)]
  · intro h1 h2 h3 h4
    exact getBytesWith1BasedIndexing_ok l s e h1 h2 h3 h4
  · intro h1 h2 h3
    rw [getBytesWith1BasedIndexing, if_neg (by omega), goSlice, if_neg (by omega)]

/-- C10 witness: index 0 on a 1-byte block slips past the upper-bound
check and reaches an out-of-range access; range (3, 1) on a 3-byte block
likewise. -/
theorem accessor_bounds_only_upper_c10_witness :
    getByteWith1BasedIndexing (some [5]) 0 = .error .Panic ∧
    getBytesWith1BasedIndexing (some [7, 8, 9]) 3 1 = .error .Panic ∧
    getByteWith1BasedIndexing (some [5]) 1 = .ok 5 := by
  have h := accessor_bounds_only_upper_c10
  refine ⟨h.1 [5] 0 |>.2.2 (by decide) (by decide), ?_, ?_⟩
  · exact h.2.1 [7, 8, 9] 3 1 |>.2.2 (by omega) (by decide) (by decide)
  · have := h.1 [5] 1 |>.2.1 (by decide) (by decide)
    simpa using this

/-- C5: when the extended-capabilities tag is absent, loadExtendedData on
a freshly constructed record returns no error and every capability field
keeps its zero/false/unsupported default. -/
theorem absent_capabilities_defaults_c5 (tlv : String → Option (List Nat)) (reader : String)
    (h : tlv extendedCapabilitiesTag = none) :
    ∃ g, (GpgData.fresh tlv reader).loadExtendedData = .ok g ∧
      g.SecureMessagingSupported = false ∧
      g.SecureMessaging = NoSecureMessaging ∧
      g.GetChallengeSupported = false ∧
      g.MaximumChallengeLength = 0 ∧
      g.KeyImportSupported = false ∧
      g.PWStatusChangeable = false ∧
      g.PrivateUseDOsSupported = false ∧
      g.AlgorithmAttributesChangeable = false ∧
      g.SupportsPSODecryptionEncryptionWithAES = false ∧
      g.KDFSupported = false ∧
      g.PinBlock2Supported = false ∧
      g.MSECommandSupported = false ∧
      g.MaximumCardholderCertificatesLength = 0 ∧
      g.MaximumSpecialDOsLength = 0 := by
  refine ⟨{ tlvValues := tlv, Reader := reader }, ?_,
    rfl, rfl, rfl, rfl, rfl, rfl, rfl, rfl, rfl, rfl, rfl, rfl, rfl, rfl⟩
  simp only [GpgData.loadExtendedData, GpgData.GetTag, GpgData.fresh, h]

/-- C5 witness at an empty tag mapping. -/
theorem absent_capabilities_defaults_c5_witness :
    ∃ g, (GpgData.fresh (fun _ => none) "rdr").loadExtendedData = .ok g ∧
      g.SecureMessagingSupported = false ∧
      g.SecureMessaging = NoSecureMessaging ∧
      g.GetChallengeSupported = false ∧
      g.MaximumChallengeLength = 0 ∧
      g.KeyImportSupported = false ∧
      g.PWStatusChangeable = false ∧
      g.PrivateUseDOsSupported = false ∧
      g.AlgorithmAttributesChangeable = false ∧
      g.SupportsPSODecryptionEncryptionWithAES = false ∧
      g.KDFSupported = false ∧
      g.PinBlock2Supported = false ∧
      g.MSECommandSupported = false ∧
      g.MaximumCardholderCertificatesLength = 0 ∧
      g.MaximumSpecialDOsLength = 0 :=
  absent_capabilities_defaults_c5 (fun _ => none) "rdr" rfl
/-- In `before ++ "<<" ++ after`, when `before ++ "<"` contains no marker,
the first marker sits exactly at index `before.length`. -/
theorem indexOfMarker_first (before after : List Char)
    (h : indexOfMarker (before ++ ['<']) = none) :
    indexOfMarker (before ++ '<' :: '<' :: after) = some before.length := by
  induction before with
  | nil => simp [indexOfMarker]
  | cons c before' ih =>
    cases before' with
    | nil =>
      have hc : ¬ c = '<' := by
        intro hc
        simp [indexOfMarker, hc] at h
      simp [indexOfMarker, hc]
    | cons d before'' =>
      have hcd : ¬ (c = '<' ∧ d = '<') := by
        intro hcd
        simp [indexOfMarker, hcd.1, hcd.2] at h
      have hinner : indexOfMarker (d :: before'' ++ ['<']) = none := by
        simp only [List.cons_append, indexOfMarker, if_neg hcd] at h
        rcases Option.map_eq_none'.mp h with h'
        simpa using h'
      have := ih hinner
      simp only [List.cons_append, indexOfMarker, if_neg hcd, List.append_eq]
      rw [List.cons_append] at this
      rw [this]
      simp [List.length_cons]

/-- C3: ParseCardHolderName maps empty input to the sentinel; for every
non-empty input the text after the first `<<` comes first, a newline
follows only when that trailing text is non-empty, then the text before
the marker (the whole input when no marker exists) with every `<`
replaced by a space; including the spec's three concrete examples. -/
theorem name_normalizer_c3 :
    ParseCardHolderName [] = NameNotSet.toList ∧
    (∀ before after : List Char, indexOfMarker (before ++ ['<']) = none →
      ParseCardHolderName (before ++ '<' :: '<' :: after) =
        after ++ (if after = [] then [] else ['\n']) ++ replaceLtWithSpace before) ∧
    (∀ name : List Char, name ≠ [] → indexOfMarker name = none →
      ParseCardHolderName name = replaceLtWithSpace name) ∧
    ParseCardHolderName "DOE<<JOHN".toList = "JOHN\nDOE".toList ∧
    ParseCardHolderName "DOE".toList = "DOE".toList ∧
    ParseCardHolderName "VAN<DER<BERG<<ANNA".toList = "ANNA\nVAN DER BERG".toList := by
  refine ⟨rfl, ?_, ?_, by decide, by decide, by decide⟩
  · intro before after h
    have hm := indexOfMarker_first before after h
    have hne : ¬ (before ++ '<' :: '<' :: after).length = 0 := by simp
    have hdrop : (before ++ '<' :: '<' :: after).drop (before.length + 2) = after := by
      have hsplit : before ++ '<' :: '<' :: after = (before ++ ['<', '<']) ++ after := by simp
      rw [hsplit]
      have hlen2 : before.length + 2 = (before ++ ['<', '<']).length := by simp
      rw [hlen2, List.drop_left]
    have htake : (before ++ '<' :: '<' :: after).take before.length = before :=
      List.take_left before _
    have hlen : (before ++ '<' :: '<' :: after).length = before.length + 2 + after.length := by
      simp
      omega
    simp only [ParseCardHolderName, if_neg hne, hm, hdrop, htake]
    by_cases ha : after = []
    · subst ha
      rw [hlen]
      simp
    · have hpos : 0 < after.length := List.length_pos.mpr ha
      rw [hlen, if_pos (by omega), if_neg ha]
  · intro name hne hnone
    have hlen : ¬ name.length = 0 := by
      simpa using hne
    simp only [ParseCardHolderName, if_neg hlen, hnone]

/-- C3 witness: the marker split applied at the concrete input
"DOE<<JOHN". -/
theorem name_normalizer_c3_witness :
    ParseCardHolderName ("DOE".toList ++ '<' :: '<' :: "JOHN".toList) =
      "JOHN".toList ++ (if "JOHN".toList = ([] : List Char) then [] else ['\n']) ++
        replaceLtWithSpace "DOE".toList :=
  name_normalizer_c3.2.1 "DOE".toList "JOHN".toList (by decide)
/-- Monadic bind on a successful `Except` just applies the
continuation. -/
theorem exceptBindOk {α β : Type} (a : α) (f : α → Except GpgError β) :
    (Except.ok a >>= f) = f a := rfl

/-- C6: Origin fails with KeyNotPresent whenever the key-origin tag is
absent or zero-length; when the tag is present and long enough it fails
with UnknownKeyOrigin exactly when the byte at the key type's ordinal
offset exceeds the highest known origin code, and otherwise returns that
byte as the KeyOrigin value. -/
theorem key_origin_c6 (g : GpgData) (t : KeyType) :
    (g.tlvValues keyOriginAttributesTag = none →
      GpgData.Origin (some g) t = .error .KeyNotPresent) ∧
    (g.tlvValues keyOriginAttributesTag = some [] →
      GpgData.Origin (some g) t = .error .KeyNotPresent) ∧
    (∀ data, g.tlvValues keyOriginAttributesTag = some data → KeyTypeSize ≤ data.length →
      (GpgData.Origin (some g) t = .error .UnknownKeyOrigin ↔
        KeyOriginLast < data.getD t.Offset 0) ∧
      (data.getD t.Offset 0 ≤ KeyOriginLast →
        GpgData.Origin (some g) t = .ok (data.getD t.Offset 0))) := by
  refine ⟨?_, ?_, ?_⟩
  · intro h
    simp [GpgData.Origin, GpgData.HasTag, h]
  · intro h
    simp [GpgData.Origin, GpgData.HasTag, h]
  · intro data hdata hlen
    have hoff : t.Offset < KeyTypeSize := by cases t <;> decide
    have hgetlen : ¬ data.length < KeyTypeSize := by omega
    have hidx := goSliceIndex_ok data (t.Offset : Int) (Int.natCast_nonneg _)
      (by exact_mod_cast lt_of_lt_of_le hoff hlen)
    rw [Int.toNat_natCast] at hidx
    have hne0 : ¬ data.length = 0 := by omega
    constructor
    · constructor
      · intro h
        by_contra hle
        rw [List.getD_eq_getElem?_getD] at hle
        simp [GpgData.Origin, GpgData.HasTag, hdata, GpgData.GetTag, hgetlen, hidx, hne0,
          exceptBindOk, hle] at h
      · intro h
        rw [List.getD_eq_getElem?_getD] at h
        simp [GpgData.Origin, GpgData.HasTag, hdata, GpgData.GetTag, hgetlen, hidx, hne0,
          exceptBindOk, h]
    · intro h
      have hnot : ¬ data.getD t.Offset 0 > KeyOriginLast := by omega
      rw [List.getD_eq_getElem?_getD] at hnot
      simp [GpgData.Origin, GpgData.HasTag, hdata, GpgData.GetTag, hgetlen, hidx, hne0,
        exceptBindOk, hnot]

/-- C6 witness: concrete origin tags exercising the present, zero-length
and unknown-code branches. -/
theorem key_origin_c6_witness :
    GpgData.Origin
      (some (GpgData.fresh (fun k => if k = "6E.73.DE" then some [1, 2, 0, 4] else none) "r"))
      KeyType.DecryptionKey = .ok 2 ∧
    GpgData.Origin
      (some (GpgData.fresh (fun k => if k = "6E.73.DE" then some [] else none) "r"))
      KeyType.SignatureKey = .error .KeyNotPresent ∧
    GpgData.Origin
      (some (GpgData.fresh (fun k => if k = "6E.73.DE" then some [9, 0, 0, 0] else none) "r"))
      KeyType.SignatureKey = .error .UnknownKeyOrigin := by
  refine ⟨?_, ?_, ?_⟩
  · exact ((key_origin_c6 _ KeyType.DecryptionKey).2.2 [1, 2, 0, 4]
      (by simp [GpgData.fresh, keyOriginAttributesTag]) (by decide)).2 (by decide)
  · exact (key_origin_c6 _ KeyType.SignatureKey).2.1 (by simp [GpgData.fresh, keyOriginAttributesTag])
  · exact ((key_origin_c6 _ KeyType.SignatureKey).2.2 [9, 0, 0, 0]
      (by simp [GpgData.fresh, keyOriginAttributesTag]) (by decide)).1.mpr (by decide)
/-- C1: for the three per-key algorithm-attributes tags, Algorithm
returns an "RSA <n>" string (n the big-endian 16-bit value of bytes 2-3)
exactly when the first byte satisfies the condition (value > 0 and
also > 3) and at least 3 bytes are present; fewer than 3 bytes under that
condition is a NoSuchAlgorithm failure; every first byte of 3 or less
(including the documented RSA range 1-3) yields the generic "Alg=<code>"
string left-justified to width 4. -/
theorem algorithm_rsa_condition_c1 (g : GpgData) (t : KeyType) (key : String) (data : List Nat)
    (hkey : keyAlgorithmTagFor t = some key)
    (hdata : g.tlvValues key = some data)
    (hlen : 1 ≤ data.length) :
    ((∃ n, GpgData.Algorithm (some g) t = .ok ("RSA " ++ Nat.repr n)) ↔
      (0 < data.getD 0 0 ∧ 3 < data.getD 0 0) ∧ 3 ≤ data.length) ∧
    ((0 < data.getD 0 0 ∧ 3 < data.getD 0 0) ∧ data.length < 3 →
      GpgData.Algorithm (some g) t = .error .NoSuchAlgorithm) ∧
    ((0 < data.getD 0 0 ∧ 3 < data.getD 0 0) ∧ 3 ≤ data.length →
      GpgData.Algorithm (some g) t =
        .ok ("RSA " ++ Nat.repr (data.getD 1 0 * 256 + data.getD 2 0))) ∧
    (data.getD 0 0 ≤ 3 →
      GpgData.Algorithm (some g) t =
        .ok ("Alg=" ++ padRightSpaces (Nat.repr (data.getD 0 0)) 4)) := by
  have hget : g.GetTag key 1 = .ok data := by
    simp only [GpgData.GetTag, hdata]
    rw [if_neg (by omega)]
  have halg : GpgData.Algorithm (some g) t =
      (if data.getD 0 0 > 0 ∧ data.getD 0 0 > 3 then
        if data.length < 3 then .error .NoSuchAlgorithm
        else .ok ("RSA " ++ Nat.repr (data.getD 1 0 * 256 + data.getD 2 0))
      else .ok ("Alg=" ++ padRightSpaces (Nat.repr (data.getD 0 0)) 4)) := by
    simp only [GpgData.Algorithm, hkey, hget]
  refine ⟨⟨?_, ?_⟩, ?_, ?_, ?_⟩
  · rintro ⟨n, hn⟩
    rw [halg] at hn
    by_cases h0 : data.getD 0 0 > 0 ∧ data.getD 0 0 > 3
    · rw [if_pos h0] at hn
      by_cases h3 : data.length < 3
      · rw [if_pos h3] at hn
        exact absurd hn (by simp)
      · exact ⟨h0, by omega⟩
    · rw [if_neg h0] at hn
      have hs : ("Alg=" ++ padRightSpaces (Nat.repr (data.getD 0 0)) 4) =
          ("RSA " ++ Nat.repr n) := by
        simpa using hn
      have hd := congrArg String.data hs
      rw [String.data_append, String.data_append] at hd
      have ha : ("Alg=" : String).data = ['A', 'l', 'g', '='] := rfl
      have hr : ("RSA " : String).data = ['R', 'S', 'A', ' '] := rfl
      rw [ha, hr] at hd
      simp only [List.cons_append, List.cons.injEq] at hd
      exact absurd hd.1 (by decide)
  · rintro ⟨h0, h3⟩
    exact ⟨data.getD 1 0 * 256 + data.getD 2 0,
      by rw [halg, if_pos (by omega), if_neg (by omega)]⟩
  · rintro ⟨h0, h3⟩
    rw [halg, if_pos (by omega), if_pos h3]
  · rintro ⟨h0, h3⟩
    rw [halg, if_pos (by omega), if_neg (by omega)]
  · intro h
    rw [halg, if_neg (by omega)]

/-- C1 witness: concrete algorithm-attributes values exercising the RSA,
too-short and generic branches. -/
theorem algorithm_rsa_condition_c1_witness :
    GpgData.Algorithm
      (some (GpgData.fresh (fun k => if k = "6E.73.C1" then some [5, 8, 0] else none) "r"))
      KeyType.SignatureKey = .ok "RSA 2048" ∧
    GpgData.Algorithm
      (some (GpgData.fresh (fun k => if k = "6E.73.C1" then some [7, 8] else none) "r"))
      KeyType.SignatureKey = .error .NoSuchAlgorithm ∧
    GpgData.Algorithm
      (some (GpgData.fresh (fun k => if k = "6E.73.C2" then some [2, 8, 0] else none) "r"))
      KeyType.DecryptionKey = .ok "Alg=2   " := by
  refine ⟨?_, ?_, ?_⟩
  · rw [(algorithm_rsa_condition_c1 _ KeyType.SignatureKey _ [5, 8, 0] rfl
      (by simp [GpgData.fresh, keyAlgorithmSignatureAttributesTag]) (by decide)).2.2.1
      ⟨by decide, by decide⟩]
    exact congrArg Except.ok (by decide)
  · exact (algorithm_rsa_condition_c1 _ KeyType.SignatureKey _ [7, 8] rfl
      (by simp [GpgData.fresh, keyAlgorithmSignatureAttributesTag]) (by decide)).2.1
      ⟨by decide, by decide⟩
  · rw [(algorithm_rsa_condition_c1 _ KeyType.DecryptionKey _ [2, 8, 0] rfl
      (by simp [GpgData.fresh, keyAlgorithmDecryptionAttributesTag]) (by decide)).2.2.2
      (by decide)]
    exact congrArg Except.ok (by decide)

/-- C7: for a key type of ordinal k in {0,1,2} and a fingerprint tag of at
least (k+1)*20 bytes, Fingerprint is the uppercase hex of the 20-byte
slice at offset k*20 (40 hex characters), and ID is exactly the last 16
hex characters of Fingerprint (the trailing 8 bytes of that slice). -/
theorem fingerprint_id_c7 (g : GpgData) (t : KeyType) (data : List Nat)
    (_ht : t ≠ KeyType.AttestKey)
    (hdata : g.tlvValues keyInformationTag = some data)
    (hlen : (t.toNat + 1) * 20 ≤ data.length)
    (hbytes : ∀ b ∈ data, b < 256) :
    ∃ fp idStr, GpgData.Fingerprint (some g) t = .ok fp ∧
      GpgData.ID (some g) t = .ok idStr ∧
      fp = UpperCaseHexString ((data.drop (t.toNat * 20)).take 20) ∧
      fp.data.length = 40 ∧
      idStr.data = fp.data.drop (fp.data.length - 16) := by
  have hlen' : t.toNat * 20 + 20 ≤ data.length := by omega
  have hget : g.GetTag keyInformationTag (t.toNat * 20 + 20) = .ok data := by
    simp only [GpgData.GetTag, hdata]
    rw [if_neg (by omega)]
  have hs1 := goSlice_ok data ((t.toNat * 20 : Nat) : Int) ((t.toNat * 20 + 20 : Nat) : Int)
    (Int.natCast_nonneg _) (by exact_mod_cast Nat.le_add_right _ _) (by exact_mod_cast hlen')
  have hs2 := goSlice_ok data (((t.toNat * 20 + 20 : Nat) : Int) - 8)
    ((t.toNat * 20 + 20 : Nat) : Int)
    (by push_cast; omega) (by omega) (by exact_mod_cast hlen')
  simp only [Int.toNat_natCast] at hs1 hs2
  rw [show t.toNat * 20 + 20 - (t.toNat * 20) = 20 from by omega] at hs1
  rw [show (((t.toNat * 20 + 20 : Nat) : Int) - 8).toNat = t.toNat * 20 + 12 from by omega] at hs2
  rw [show t.toNat * 20 + 20 - (t.toNat * 20 + 12) = 8 from by omega] at hs2
  have hfp : GpgData.Fingerprint (some g) t =
      .ok (UpperCaseHexString ((data.drop (t.toNat * 20)).take 20)) := by
    simp only [GpgData.Fingerprint, getKeyLen, keyFingerprintLen, hget, hs1, exceptBindOk]
  have hid : GpgData.ID (some g) t =
      .ok (UpperCaseHexString ((data.drop (t.toNat * 20 + 12)).take 8)) := by
    simp only [GpgData.ID, getKeyLen, keyFingerprintLen, hget, hs2, exceptBindOk]
  refine ⟨_, _, hfp, hid, rfl, ?_, ?_⟩
  · have hsl_len : ((data.drop (t.toNat * 20)).take 20).length = 20 := by
      rw [List.length_take, List.length_drop]
      omega
    have hsl_bytes : ∀ b ∈ (data.drop (t.toNat * 20)).take 20, b < 256 := fun b hb =>
      hbytes b (List.mem_of_mem_drop (List.mem_of_mem_take hb))
    show (upperHexChars _).length = 40
    rw [upperHexChars_length _ hsl_bytes, hsl_len]
  · -- identify the tail slice with the drop of the fingerprint slice
    have hsl_len : ((data.drop (t.toNat * 20)).take 20).length = 20 := by
      rw [List.length_take, List.length_drop]
      omega
    have hsl_bytes : ∀ b ∈ (data.drop (t.toNat * 20)).take 20, b < 256 := fun b hb =>
      hbytes b (List.mem_of_mem_drop (List.mem_of_mem_take hb))
    have htail : ((data.drop (t.toNat * 20)).take 20).drop 12 =
        (data.drop (t.toNat * 20 + 12)).take 8 := by
      rw [List.drop_take, List.drop_drop]
    have hsplit := List.take_append_drop 12 ((data.drop (t.toNat * 20)).take 20)
    have htake_bytes : ∀ b ∈ ((data.drop (t.toNat * 20)).take 20).take 12, b < 256 :=
      fun b hb => hsl_bytes b (List.mem_of_mem_take hb)
    have htake_len : (((data.drop (t.toNat * 20)).take 20).take 12).length = 12 := by
      rw [List.length_take, hsl_len]
      omega
    have h24 : (upperHexChars (((data.drop (t.toNat * 20)).take 20).take 12)).length = 24 := by
      rw [upperHexChars_length _ htake_bytes, htake_len]
    show upperHexChars ((data.drop (t.toNat * 20 + 12)).take 8) =
      (upperHexChars ((data.drop (t.toNat * 20)).take 20)).drop
        ((upperHexChars ((data.drop (t.toNat * 20)).take 20)).length - 16)
    rw [upperHexChars_length _ hsl_bytes, hsl_len]
    rw [← htail]
    conv_rhs => rw [← hsplit, upperHexChars_append]
    rw [show 2 * 20 - 16 = 24 from by omega, ← h24, List.drop_left]

/-- C7 witness: a 60-byte tag with the Authentication key (ordinal 2)
reads 0-based bytes 40-59. -/
theorem fingerprint_id_c7_witness :
    ∃ fp idStr,
      GpgData.Fingerprint
        (some (GpgData.fresh (fun k => if k = "6E.73.C5" then some (List.range 60) else none) "r"))
        KeyType.AuthenticationKey = .ok fp ∧
      GpgData.ID
        (some (GpgData.fresh (fun k => if k = "6E.73.C5" then some (List.range 60) else none) "r"))
        KeyType.AuthenticationKey = .ok idStr ∧
      fp = UpperCaseHexString (((List.range 60).drop (KeyType.AuthenticationKey.toNat * 20)).take 20) ∧
      fp.data.length = 40 ∧
      idStr.data = fp.data.drop (fp.data.length - 16) :=
  fingerprint_id_c7 _ KeyType.AuthenticationKey (List.range 60) (by decide)
    (by simp [GpgData.fresh, keyInformationTag]) (by decide) (by decide)

/-- Monadic bind on a failed `Except` short-circuits. -/
theorem exceptBindError {α β : Type} (e : GpgError) (f : α → Except GpgError β) :
    ((Except.error e : Except GpgError α) >>= f) = .error e := rfl

/-- C4: on a 10-byte extended-capabilities tag, when the secure-messaging
bit of byte 1 is set, decoding fails with NoSuchAlgorithm exactly when
byte 2 exceeds the highest known secure-messaging algorithm identifier,
and otherwise SecureMessagingSupported becomes true with SecureMessaging
taking byte 2's value; when the bit is clear, SecureMessagingSupported
stays false and SecureMessaging stays at its default regardless of
byte 2. -/
theorem capability_bit_gating_c4 (tlv : String → Option (List Nat)) (reader : String)
    (tag : List Nat)
    (htag : tlv extendedCapabilitiesTag = some tag)
    (hlen : tag.length = 10) :
    (tag.getD 0 0 &&& SecureMessagingFlag = SecureMessagingFlag →
      (((GpgData.fresh tlv reader).loadExtendedData = .error .NoSuchAlgorithm) ↔
        tag.getD 1 0 > SecureMessagingAlgorithmLast) ∧
      (tag.getD 1 0 ≤ SecureMessagingAlgorithmLast →
        ∃ g, (GpgData.fresh tlv reader).loadExtendedData = .ok g ∧
          g.SecureMessagingSupported = true ∧
          g.SecureMessaging = tag.getD 1 0)) ∧
    (tag.getD 0 0 &&& SecureMessagingFlag ≠ SecureMessagingFlag →
      ∃ g, (GpgData.fresh tlv reader).loadExtendedData = .ok g ∧
        g.SecureMessagingSupported = false ∧
        g.SecureMessaging = NoSecureMessaging) := by
  have hb : ∀ i : Nat, 1 ≤ i → i ≤ 10 →
      getByteWith1BasedIndexing (some tag) (i : Int) = .ok (tag.getD (i - 1) 0) := by
    intro i h1 h2
    rw [getByteWith1BasedIndexing_ok tag (i : Int) (by omega) (by omega),
      show ((i : Int) - 1).toNat = i - 1 from by omega]
  have hb1 := hb 1 (by omega) (by omega)
  have hb2 := hb 2 (by omega) (by omega)
  have hb9 := hb 9 (by omega) (by omega)
  have hb10 := hb 10 (by omega) (by omega)
  norm_num at hb1 hb2 hb9 hb10
  have hbs : ∀ s e : Nat, 1 ≤ s → s ≤ e → e ≤ 10 →
      getBytesWith1BasedIndexing (some tag) (s : Int) (e : Int) =
        .ok ((tag.drop (s - 1)).take (e - s + 1)) := by
    intro s e h1 h2 h3
    rw [getBytesWith1BasedIndexing_ok tag (s : Int) (e : Int)
      (by omega) (by omega) (by omega) (by omega),
      show ((s : Int) - 1).toNat = s - 1 from by omega,
      show (e : Int).toNat = e from by omega,
      show e - (s - 1) = e - s + 1 from by omega]
  have hbs34 := hbs 3 4 (by omega) (by omega) (by omega)
  have hbs56 := hbs 5 6 (by omega) (by omega) (by omega)
  have hbs78 := hbs 7 8 (by omega) (by omega) (by omega)
  norm_num at hbs34 hbs56 hbs78
  have hchal : ¬ ((tag.drop 2).take 2).length ≠ 2 := by
    simp [List.length_take, List.length_drop, hlen]
  have hlt : ¬ tag.length < 10 := by omega
  simp only [List.getD_eq_getElem?_getD]
  refine ⟨fun hbit => ⟨⟨?_, ?_⟩, ?_⟩, fun hbit => ?_⟩
  · intro herr
    by_contra hle
    by_cases hgc : tag[0]?.getD 0 &&& GetChallenge ≠ GetChallenge
    · simp only [GpgData.loadExtendedData, GpgData.GetTag, GpgData.fresh, htag, hlt,
        if_false, List.getD_eq_getElem?_getD, hb1, hb2, hb9, hb10, hbs34, hbs56, hbs78,
        exceptBindOk, GpgData.setSecureMessaging, GpgData.setGetChallengeSupported,
        hbit, hle, hchal, hgc, not_not, not_true, not_false_iff, if_true,
        ne_eq, eq_self_iff_true, if_false, not_false_eq_true, ite_true, ite_false] at herr
      simp at herr
    · simp only [GpgData.loadExtendedData, GpgData.GetTag, GpgData.fresh, htag, hlt,
        if_false, List.getD_eq_getElem?_getD, hb1, hb2, hb9, hb10, hbs34, hbs56, hbs78,
        exceptBindOk, GpgData.setSecureMessaging, GpgData.setGetChallengeSupported,
        hbit, hle, hchal, hgc, not_not, not_true, not_false_iff, if_true,
        ne_eq, eq_self_iff_true, if_false, not_false_eq_true, ite_true, ite_false] at herr
      simp at herr
  · intro hsm
    simp only [GpgData.loadExtendedData, GpgData.GetTag, GpgData.fresh, htag, hlt,
      if_false, List.getD_eq_getElem?_getD, hb1, hb2, exceptBindOk,
      GpgData.setSecureMessaging, hbit, hsm, not_true, not_false_iff, if_true,
      ne_eq, eq_self_iff_true, if_false, not_false_eq_true, ite_true, ite_false,
      exceptBindError]
  · intro hsm
    have hsmneg : ¬ tag[1]?.getD 0 > SecureMessagingAlgorithmLast := fun hcon =>
      Nat.lt_irrefl _ (Nat.lt_of_le_of_lt hsm hcon)
    by_cases hgc : tag[0]?.getD 0 &&& GetChallenge ≠ GetChallenge
    · simp only [GpgData.loadExtendedData, GpgData.GetTag, GpgData.fresh, htag, hlt,
        if_false, List.getD_eq_getElem?_getD, hb1, hb2, hb9, hb10, hbs34, hbs56, hbs78,
        exceptBindOk, GpgData.setSecureMessaging, GpgData.setGetChallengeSupported,
        hbit, hsmneg, hchal, hgc, not_not, not_true, not_false_iff, if_true,
        ne_eq, eq_self_iff_true, if_false, not_false_eq_true, ite_true, ite_false]
      exact ⟨_, rfl, rfl, rfl⟩
    · simp only [GpgData.loadExtendedData, GpgData.GetTag, GpgData.fresh, htag, hlt,
        if_false, List.getD_eq_getElem?_getD, hb1, hb2, hb9, hb10, hbs34, hbs56, hbs78,
        exceptBindOk, GpgData.setSecureMessaging, GpgData.setGetChallengeSupported,
        hbit, hsmneg, hchal, hgc, not_not, not_true, not_false_iff, if_true,
        ne_eq, eq_self_iff_true, if_false, not_false_eq_true, ite_true, ite_false]
      exact ⟨_, rfl, rfl, rfl⟩
  · by_cases hgc : tag[0]?.getD 0 &&& GetChallenge ≠ GetChallenge
    · simp only [GpgData.loadExtendedData, GpgData.GetTag, GpgData.fresh, htag, hlt,
        if_false, List.getD_eq_getElem?_getD, hb1, hb2, hb9, hb10, hbs34, hbs56, hbs78,
        exceptBindOk, GpgData.setSecureMessaging, GpgData.setGetChallengeSupported,
        hbit, hchal, hgc, not_not, not_true, not_false_iff, if_true,
        ne_eq, eq_self_iff_true, if_false, not_false_eq_true, ite_true, ite_false]
      exact ⟨_, rfl, rfl, rfl⟩
    · simp only [GpgData.loadExtendedData, GpgData.GetTag, GpgData.fresh, htag, hlt,
        if_false, List.getD_eq_getElem?_getD, hb1, hb2, hb9, hb10, hbs34, hbs56, hbs78,
        exceptBindOk, GpgData.setSecureMessaging, GpgData.setGetChallengeSupported,
        hbit, hchal, hgc, not_not, not_true, not_false_iff, if_true,
        ne_eq, eq_self_iff_true, if_false, not_false_eq_true, ite_true, ite_false]
      exact ⟨_, rfl, rfl, rfl⟩

/-- C4 witness: concrete 10-byte tags exercising the bit-set,
unknown-algorithm and bit-clear branches. -/
theorem capability_bit_gating_c4_witness :
    (∃ g, (GpgData.fresh
        (fun k => if k = "6E.73.C0" then some [128, 1, 0, 0, 0, 0, 0, 0, 0, 0] else none)
        "r").loadExtendedData = .ok g ∧
      g.SecureMessagingSupported = true ∧
      g.SecureMessaging = [128, 1, 0, 0, 0, 0, 0, 0, 0, 0].getD 1 0) ∧
    ((GpgData.fresh
        (fun k => if k = "6E.73.C0" then some [128, 9, 0, 0, 0, 0, 0, 0, 0, 0] else none)
        "r").loadExtendedData = .error .NoSuchAlgorithm) ∧
    (∃ g, (GpgData.fresh
        (fun k => if k = "6E.73.C0" then some [0, 9, 0, 0, 0, 0, 0, 0, 0, 0] else none)
        "r").loadExtendedData = .ok g ∧
      g.SecureMessagingSupported = false ∧
      g.SecureMessaging = NoSecureMessaging) := by
  refine ⟨?_, ?_, ?_⟩
  · exact ((capability_bit_gating_c4 _ "r" [128, 1, 0, 0, 0, 0, 0, 0, 0, 0]
      (by simp [extendedCapabilitiesTag]) (by decide)).1 (by decide)).2 (by decide)
  · exact ((capability_bit_gating_c4 _ "r" [128, 9, 0, 0, 0, 0, 0, 0, 0, 0]
      (by simp [extendedCapabilitiesTag]) (by decide)).1 (by decide)).1.mpr (by decide)
  · exact (capability_bit_gating_c4 _ "r" [0, 9, 0, 0, 0, 0, 0, 0, 0, 0]
      (by simp [extendedCapabilitiesTag]) (by decide)).2 (by decide)

/-- Taking one element of a non-empty list yields its head. -/
theorem take_one_getD (l : List Nat) (h : l ≠ []) : l.take 1 = [l.getD 0 0] := by
  cases l with
  | nil => exact absurd rfl h
  | cons a t => rfl

/-- C2 counterexample: on an application-identifier value of exactly 13
bytes the construction pass reads index 13 (0-based) of a 13-byte block,
an out-of-range access (modelled as a runtime panic), so it does not
complete and derives nothing. -/
theorem update_panics_on_13_c2_counterexample :
    (GpgData.fresh
      (fun k => if k = "6E.4F" then some [0, 0, 0, 0, 0, 0, 0, 0, 0, 0, 0, 0, 0] else none)
      "rdr").update = .error .Panic := by
  rfl

/-- `getD` of a drop-take slice in `getElem?` form. -/
theorem getElemD_drop_take (l : List Nat) (a n j : Nat) (h : j < n) :
    (((l.drop a).take n)[j]?).getD 0 = (l[a + j]?).getD 0 := by
  rw [← List.getD_eq_getElem?_getD, ← List.getD_eq_getElem?_getD]
  exact getD_drop_take l a n j h

/-- C2 amended: for every application-identifier tag value of at least 14
bytes (and the extended-capabilities tag absent), the construction pass
completes without failure, deriving Serial and SerialInt from 0-based
bytes 10-13, Rid from bytes 0-4, Application from byte 5 annotated
"(OpenPGP)" when it equals 1, Version from bytes 6-7, and Manufacturer
from bytes 8-9 annotated "(YubiCo)" when those bytes are (0,6). -/
theorem update_construction_c2_amended (tlv : String → Option (List Nat)) (reader : String)
    (aid : List Nat)
    (haid : tlv "6E.4F" = some aid)
    (hlen : 14 ≤ aid.length)
    (hext : tlv extendedCapabilitiesTag = none) :
    ∃ g, (GpgData.fresh tlv reader).update = .ok g ∧
      g.Serial = String.mk (toHexNat (aid.getD 10 0) ++ hex2 (aid.getD 11 0) ++
        hex2 (aid.getD 12 0) ++ hex2 (aid.getD 13 0)) ∧
      g.SerialInt = ((aid.getD 10 0 * 256 + aid.getD 11 0) * 256 + aid.getD 12 0) * 256 +
        aid.getD 13 0 ∧
      g.Rid = UpperCaseHexString (aid.take 5) ∧
      g.Application = UpperCaseHexString [aid.getD 5 0] ++
        (if aid.getD 5 0 = 1 then " (OpenPGP)" else "") ∧
      g.Version = String.mk (toHexNat (aid.getD 6 0)) ++ "." ++
        String.mk (toHexNat (aid.getD 7 0)) ∧
      g.Manufacturer = String.mk (hex2 (aid.getD 8 0)) ++ String.mk (hex2 (aid.getD 9 0)) ++
        (if aid.getD 8 0 = 0 ∧ aid.getD 9 0 = 6 then " (YubiCo)" else "") := by
  have hlt13 : ¬ aid.length < 13 := by omega
  have hix : ∀ i : Nat, i ≤ 13 → goSliceIndex aid (i : Int) = .ok (aid.getD i 0) := by
    intro i hi
    rw [goSliceIndex_ok aid (i : Int) (by omega) (by omega), Int.toNat_natCast]
  have h5 := hix 5 (by omega)
  have h6 := hix 6 (by omega)
  have h7 := hix 7 (by omega)
  have h8 := hix 8 (by omega)
  have h9 := hix 9 (by omega)
  have h10 := hix 10 (by omega)
  have h11 := hix 11 (by omega)
  have h12 := hix 12 (by omega)
  have h13 := hix 13 (by omega)
  norm_num at h5 h6 h7 h8 h9 h10 h11 h12 h13
  have hslice : ∀ a b : Nat, a ≤ b → b ≤ 14 →
      goSlice aid (a : Int) (b : Int) = .ok ((aid.drop a).take (b - a)) := by
    intro a b hab hb
    rw [goSlice_ok aid (a : Int) (b : Int) (by omega) (by omega) (by omega),
      Int.toNat_natCast, Int.toNat_natCast]
  have hsl1014 := hslice 10 14 (by omega) (by omega)
  have hsl05 := hslice 0 5 (by omega) (by omega)
  have hsl56 := hslice 5 6 (by omega) (by omega)
  norm_num at hsl1014 hsl05 hsl56
  simp only [List.getD_eq_getElem?_getD]
  cases hE : (GpgData.fresh tlv reader).update with
  | error e =>
    simp only [GpgData.update, GpgData.GetTag, GpgData.fresh, haid, hlt13, if_false,
      h5, h6, h7, h8, h9, h10, h11, h12, h13, hsl1014, hsl05, hsl56, exceptBindOk,
      GpgData.loadExtendedData, hext] at hE
    exact absurd hE (by simp)
  | ok g =>
    simp only [GpgData.update, GpgData.GetTag, GpgData.fresh, haid, hlt13, if_false,
      h5, h6, h7, h8, h9, h10, h11, h12, h13, hsl1014, hsl05, hsl56, exceptBindOk,
      GpgData.loadExtendedData, hext, Except.ok.injEq] at hE
    subst hE
    refine ⟨_, rfl, rfl, ?_, ?_, ?_, rfl, rfl⟩
    · show beUint32 (List.take 4 (List.drop 10 aid)) = _
      simp only [beUint32, List.getD_eq_getElem?_getD]
      rw [getElemD_drop_take aid 10 4 0 (by omega), getElemD_drop_take aid 10 4 1 (by omega),
        getElemD_drop_take aid 10 4 2 (by omega), getElemD_drop_take aid 10 4 3 (by omega)]
    · show UpperCaseHexString (List.take 5 aid) = UpperCaseHexString (aid.take 5)
      rfl
    · show UpperCaseHexString (List.take 1 (List.drop 5 aid)) ++ _ = _
      have hne : aid.drop 5 ≠ [] := by
        intro hc
        have hlc := congrArg List.length hc
        simp [List.length_drop] at hlc
        omega
      rw [take_one_getD _ hne]
      have hg5 : (aid.drop 5).getD 0 0 = (aid[5]?).getD 0 := by
        rw [List.getD, List.get?_drop, ← List.getD_eq_getElem?_getD]
        rfl
      rw [hg5]

/-- A single hex digit renders as itself. -/
theorem toHexNat_of_lt_16 (n : Nat) (h : n < 16) : toHexNat n = [hexDigitChar n] := by
  rw [toHexNat, toHexNatGo_of_lt_16 _ _ (by omega) h]

/-- A byte below 16 renders zero-padded. -/
theorem hex2_of_lt_16 (n : Nat) (h : n < 16) : hex2 n = ['0', hexDigitChar n] := by
  rw [hex2, if_pos h, toHexNat_of_lt_16 n h]

/-- C2 witness: a concrete 16-byte application identifier decodes to the
expected display fields. -/
theorem update_construction_c2_witness :
    ∃ g, (GpgData.fresh
        (fun k => if k = "6E.4F" then
          some [210, 118, 0, 1, 36, 1, 3, 4, 0, 6, 10, 11, 12, 13, 0, 0] else none)
        "rdr").update = .ok g ∧
      g.Serial = "A0B0C0D" ∧ g.SerialInt = 168496141 ∧ g.Rid = "D276000124" ∧
      g.Application = "01 (OpenPGP)" ∧ g.Version = "3.4" ∧
      g.Manufacturer = "0006 (YubiCo)" := by
  obtain ⟨g, hu, hs, hsi, hr, ha, hv, hm⟩ := update_construction_c2_amended
    (fun k => if k = "6E.4F" then
      some [210, 118, 0, 1, 36, 1, 3, 4, 0, 6, 10, 11, 12, 13, 0, 0] else none) "rdr"
    [210, 118, 0, 1, 36, 1, 3, 4, 0, 6, 10, 11, 12, 13, 0, 0] rfl (by decide) rfl
  refine ⟨g, hu, ?_, ?_, ?_, ?_, ?_, ?_⟩
  · rw [hs]
    decide
  · rw [hsi]
    decide
  · rw [hr]
    decide
  · rw [ha]
    decide
  · rw [hv]
    decide
  · rw [hm]
    decide
